import Mathlib

/-! ARP header decoding (`layers/arp.go`).

A shallow embedding of the Go method `(*ARP).DecodeFromBytes` and of its three
companion methods, with the Go run-time checks on index and slice expressions
made explicit.  A Go slice is modelled together with the part of its backing
array that lies between its length and its capacity, because a slice
expression `s[lo:hi]` is checked against the capacity and an index expression
`s[i]` against the length.  The underlying type of `LinkType`, declared outside
`arp.go`, is a parameter (`UintKind`) of the decode and of every theorem about it.
-/

namespace Layers

/-! ## Go values -/

/-- One octet of the captured buffer. -/
abbrev Byte := Fin 256

/-- A Go `[]byte`: `elems` are the `len` visible bytes and `spare` the bytes of
the backing array after them, so that the capacity is the sum of both lengths. -/
structure Slice where
  elems : List Byte
  spare : List Byte
  deriving DecidableEq

/-- The nil slice, the zero value of `[]byte`. -/
def Slice.nil : Slice := { elems := [], spare := [] }

/-- A buffer whose capacity equals its length. -/
def Slice.ofList (bs : List Byte) : Slice := { elems := bs, spare := [] }

/-- Go `len(s)`. -/
def Slice.len (s : Slice) : Nat := s.elems.length

/-- Go `cap(s)`. -/
def Slice.cap (s : Slice) : Nat := s.elems.length + s.spare.length

/-- The two run-time panics an index or slice expression can raise. -/
inductive Fault where
  | indexOutOfRange
  | sliceBoundsOutOfRange
  deriving DecidableEq

/-- Go `s[i]`: in range when `i < len(s)`. -/
def Slice.index (s : Slice) (i : Nat) : Except Fault Byte :=
  match s.elems[i]? with
  | some b => .ok b
  | none => .error .indexOutOfRange

/-- Go `s[lo:hi]`: in range when `lo ≤ hi ≤ cap(s)`. -/
def Slice.slice (s : Slice) (lo hi : Nat) : Except Fault Slice :=
  if lo ≤ hi ∧ hi ≤ s.cap then
    .ok { elems := ((s.elems ++ s.spare).take hi).drop lo,
          spare := (s.elems ++ s.spare).drop hi }
  else .error .sliceBoundsOutOfRange

/-- Go `s[:hi]`, the low bound defaulting to zero. -/
def Slice.sliceTo (s : Slice) (hi : Nat) : Except Fault Slice := s.slice 0 hi

/-- Go `s[lo:]`, the high bound defaulting to `len(s)`. -/
def Slice.sliceFrom (s : Slice) (lo : Nat) : Except Fault Slice := s.slice lo s.len

/-- Addition of two `uint8` values. -/
def u8add (a b : Nat) : Nat := (a + b) % 256

/-- Multiplication of two `uint8` values. -/
def u8mul (a b : Nat) : Nat := (a * b) % 256

/-- Go `binary.BigEndian.Uint16(b)`, that is `uint16(b[1]) | uint16(b[0])<<8`. -/
def BigEndian.Uint16 (b : Slice) : Except Fault Nat :=
  match b.index 1 with
  | .error f => .error f
  | .ok b1 =>
    match b.index 0 with
    | .error f => .error f
    | .ok b0 => .ok ((b1.val % 65536) ||| ((b0.val % 65536) <<< 8) % 65536)

/-! ## Types declared outside `arp.go` -/

/-- The declaration of `LinkType` is not in the source, and the spec fixes only
the 2-byte wire field, not the width of the Go type that holds it.  Its
underlying type is therefore a parameter of the embedding: one of Go's sized
unsigned integer types. -/
inductive UintKind where
  | uint8
  | uint16
  | uint32
  | uint64
  deriving DecidableEq

/-- The width in bits of a sized unsigned integer type. -/
def UintKind.bits : UintKind → Nat
  | .uint8 => 8
  | .uint16 => 16
  | .uint32 => 32
  | .uint64 => 64

/-- The Go conversion `LinkType(x)` of a `uint16`: the value is truncated to the
width of `LinkType`. -/
def LinkType.ofUint16 (linkType : UintKind) (x : Nat) : Nat := x % 2 ^ linkType.bits

/-- Modelled from the spec: the declaration of `EthernetType` is not in the
source; the data model gives the protocol-type as a 2-byte field, so the
conversion `EthernetType(x)` of a `uint16` keeps all 16 bits. -/
def EthernetType.ofUint16 (x : Nat) : Nat := x % 65536

/-- Modelled from the spec: the declaration of `BaseLayer` is not in the source;
a layer carries `contents` (the header's own bytes) and `payload` (the
remaining bytes), both views into the decoded buffer. -/
structure BaseLayer where
  Contents : Slice
  Payload : Slice
  deriving DecidableEq

/-- Modelled from the spec: `gopacket.LayerType` is declared outside the source;
it is a tag identifying a header kind. -/
abbrev LayerType := Nat

/-- Modelled from the spec: `gopacket.LayerClass` is declared outside the source;
it is the set of tags a decoder declares, and a single `LayerType` used as a
`LayerClass` (as `CanDecode` does) stands for the set holding that tag only. -/
inductive LayerClass where
  | ofLayerType (t : LayerType)
  | ofLayerTypes (ts : List LayerType)
  deriving DecidableEq

/-- The tags a `LayerClass` holds. -/
def LayerClass.LayerTypes : LayerClass → List LayerType
  | .ofLayerType t => [t]
  | .ofLayerTypes ts => ts

/-- Modelled from the spec: the two tag values `arp.go` refers to,
`LayerTypeARP` and `gopacket.LayerTypePayload`, are declared outside the
source and are taken as parameters.  `LayerTypePayload` is the tag the spec
calls `Terminal`: the remainder is opaque payload, no further header. -/
structure Tags where
  LayerTypeARP : LayerType
  LayerTypePayload : LayerType
  deriving DecidableEq

/-- Error values of the spec's taxonomy; the Go result type is `error`, and
`none` below stands for the `nil` error. -/
inductive DecodeError where
  | Truncated
  | UnknownLayerType
  | ConstructionConflict
  deriving DecidableEq

/-! ## The ARP layer -/

/-- The Go struct `ARP`. -/
structure ARP extends BaseLayer where
  AddrType : Nat
  Protocol : Nat
  HwAddressSize : Nat
  ProtAddressSize : Nat
  Operation : Nat
  SourceHwAddress : Slice
  SourceProtAddress : Slice
  DstHwAddress : Slice
  DstProtAddress : Slice
  deriving DecidableEq

/-- The zero value `ARP{}`, as built by `decodeARP`. -/
def ARP.zero : ARP :=
  { Contents := Slice.nil, Payload := Slice.nil, AddrType := 0, Protocol := 0,
    HwAddressSize := 0, ProtAddressSize := 0, Operation := 0,
    SourceHwAddress := Slice.nil, SourceProtAddress := Slice.nil,
    DstHwAddress := Slice.nil, DstProtAddress := Slice.nil }

/-- How a call on a pointer receiver ends: it returns a value, or it panics;
either way the receiver is left in some state. -/
inductive Outcome (α : Type) where
  | returned (value : α) (arp : ARP)
  | panicked (fault : Fault) (arp : ARP)
  deriving DecidableEq

/-- The receiver as the call left it. -/
def Outcome.receiver {α : Type} : Outcome α → ARP
  | .returned _ arp => arp
  | .panicked _ arp => arp

/-- A method body: a function of the receiver state. -/
def Method (α : Type) : Type := ARP → Outcome α

/-- Sequencing of statements; a panic ends the call and keeps the receiver as
it is at that point. -/
def Method.bind {α β : Type} (m : Method α) (f : α → Method β) : Method β :=
  fun arp =>
    match m arp with
    | .returned a arp1 => f a arp1
    | .panicked e arp1 => .panicked e arp1

instance : Monad Method where
  pure a := fun arp => .returned a arp
  bind := Method.bind

/-- Evaluation of an expression that may panic. -/
def attempt {α : Type} (e : Except Fault α) : Method α :=
  fun arp =>
    match e with
    | .ok a => .returned a arp
    | .error f => .panicked f arp

/-- Evaluation of an expression that reads the receiver and may panic. -/
def attemptWith {α : Type} (e : ARP → Except Fault α) : Method α :=
  fun arp => attempt (e arp) arp

/-- A read of the receiver that cannot panic. -/
def load {α : Type} (f : ARP → α) : Method α :=
  fun arp => .returned (f arp) arp

/-- An assignment to a field of the receiver. -/
def assign (f : ARP → ARP) : Method Unit :=
  fun arp => .returned () (f arp)

/-- Go `func (arp *ARP) LayerType() gopacket.LayerType`. -/
def ARP.LayerType (tags : Tags) (_arp : ARP) : Layers.LayerType := tags.LayerTypeARP

/-- Go `func (arp *ARP) DecodeFromBytes(data []byte, df gopacket.DecodeFeedback) error`,
for a given underlying type of `LinkType`. -/
def ARP.DecodeFromBytes {DecodeFeedback : Type} (linkType : UintKind) (data : Slice)
    (_df : DecodeFeedback) : Method (Option DecodeError) := do
  let v ← attempt (data.slice 0 2 >>= BigEndian.Uint16)
  assign fun arp => { arp with AddrType := LinkType.ofUint16 linkType v }
  let v ← attempt (data.slice 2 4 >>= BigEndian.Uint16)
  assign fun arp => { arp with Protocol := EthernetType.ofUint16 v }
  let v ← attempt (data.index 4)
  assign fun arp => { arp with HwAddressSize := v.val }
  let v ← attempt (data.index 5)
  assign fun arp => { arp with ProtAddressSize := v.val }
  let v ← attempt (data.slice 6 8 >>= BigEndian.Uint16)
  assign fun arp => { arp with Operation := v }
  let v ← attemptWith fun arp => data.slice 8 (u8add 8 arp.HwAddressSize)
  assign fun arp => { arp with SourceHwAddress := v }
  let v ← attemptWith fun arp =>
    data.slice (u8add 8 arp.HwAddressSize)
      (u8add (u8add 8 arp.HwAddressSize) arp.ProtAddressSize)
  assign fun arp => { arp with SourceProtAddress := v }
  let v ← attemptWith fun arp =>
    data.slice (u8add (u8add 8 arp.HwAddressSize) arp.ProtAddressSize)
      (u8add (u8add 8 (u8mul 2 arp.HwAddressSize)) arp.ProtAddressSize)
  assign fun arp => { arp with DstHwAddress := v }
  let v ← attemptWith fun arp =>
    data.slice (u8add (u8add 8 (u8mul 2 arp.HwAddressSize)) arp.ProtAddressSize)
      (u8add (u8add 8 (u8mul 2 arp.HwAddressSize)) (u8mul 2 arp.ProtAddressSize))
  assign fun arp => { arp with DstProtAddress := v }
  let arpLength ← load fun arp =>
    u8add (u8add 8 (u8mul 2 arp.HwAddressSize)) (u8mul 2 arp.ProtAddressSize)
  let v ← attempt (data.sliceTo arpLength)
  assign fun arp => { arp with Contents := v }
  let v ← attempt (data.sliceFrom arpLength)
  assign fun arp => { arp with Payload := v }
  return none

/-- Go `func (arp *ARP) CanDecode() gopacket.LayerClass`. -/
def ARP.CanDecode (tags : Tags) (_arp : ARP) : LayerClass :=
  LayerClass.ofLayerType tags.LayerTypeARP

/-- Go `func (arp *ARP) NextLayerType() gopacket.LayerType`. -/
def ARP.NextLayerType (tags : Tags) (_arp : ARP) : Layers.LayerType := tags.LayerTypePayload

/-- The 28-byte request of the concrete scenario. -/
def sampleRequest : List Byte :=
  [0x00, 0x01, 0x08, 0x00, 0x06, 0x04, 0x00, 0x01,
   0xAA, 0xBB, 0xCC, 0xDD, 0xEE, 0xFF, 0xC0, 0xA8, 0x00, 0x01,
   0x11, 0x22, 0x33, 0x44, 0x55, 0x66, 0xC0, 0xA8, 0x00, 0x02]

/-- The byte `buffer[i]` as a number (zero when `i` is not an index of the buffer). -/
def Slice.byteAt (s : Slice) (i : Nat) : Nat := (s.elems.getD i 0).val

/-- The bytes `buffer[lo, hi)` of the visible part of a buffer. -/
def Slice.range (s : Slice) (lo hi : Nat) : List Byte := (s.elems.take hi).drop lo

/-! ## The decoded value -/

/-- The sub-slice `data[lo:hi]` for bounds inside the visible part of `data`. -/
def Slice.view (s : Slice) (lo hi : Nat) : Slice :=
  { elems := s.range lo hi, spare := s.elems.drop hi ++ s.spare }

/-- The exact header length `8 + 2·hwLen + 2·protoLen` a buffer declares. -/
def headerLen (data : Slice) : Nat := 8 + 2 * data.byteAt 4 + 2 * data.byteAt 5

/-- The receiver state a decode without wrap-around leaves behind. -/
def ARP.ofBuffer (linkType : UintKind) (data : Slice) : ARP :=
  { Contents := data.view 0 (headerLen data)
    Payload := data.view (headerLen data) data.len
    AddrType := LinkType.ofUint16 linkType (256 * data.byteAt 0 + data.byteAt 1)
    Protocol := 256 * data.byteAt 2 + data.byteAt 3
    HwAddressSize := data.byteAt 4
    ProtAddressSize := data.byteAt 5
    Operation := 256 * data.byteAt 6 + data.byteAt 7
    SourceHwAddress := data.view 8 (8 + data.byteAt 4)
    SourceProtAddress := data.view (8 + data.byteAt 4) (8 + data.byteAt 4 + data.byteAt 5)
    DstHwAddress :=
      data.view (8 + data.byteAt 4 + data.byteAt 5) (8 + 2 * data.byteAt 4 + data.byteAt 5)
    DstProtAddress :=
      data.view (8 + 2 * data.byteAt 4 + data.byteAt 5) (8 + 2 * data.byteAt 4 + 2 * data.byteAt 5) }

/-- The fault a call ended with, if it panicked. -/
def Outcome.fault? {α : Type} : Outcome α → Option Fault
  | .returned _ _ => none
  | .panicked f _ => some f

/-- The value a call returned, if it returned. -/
def Outcome.value? {α : Type} : Outcome α → Option α
  | .returned a _ => some a
  | .panicked _ _ => none

/-- The sample request with its hardware-address-type bytes replaced by `12 34`. -/
def wideTypeRequest : List Byte :=
  [0x12, 0x34, 0x08, 0x00, 0x06, 0x04, 0x00, 0x01,
   0xAA, 0xBB, 0xCC, 0xDD, 0xEE, 0xFF, 0xC0, 0xA8, 0x00, 0x01,
   0x11, 0x22, 0x33, 0x44, 0x55, 0x66, 0xC0, 0xA8, 0x00, 0x02]

/-- A 256-byte buffer declaring `hwLen = 124`, `protoLen = 0`, hence a header of
exactly 256 bytes. -/
def oversized : List Byte := [0, 1, 8, 0, 124, 0, 0, 1] ++ List.replicate 248 0

set_option maxRecDepth 100000

/-! ## Evaluation rules -/

theorem Method.bind_apply {α β : Type} (m : Method α) (f : α → Method β) (arp : ARP) :
    (m >>= f) arp =
      match m arp with
      | .returned a arp1 => f a arp1
      | .panicked e arp1 => .panicked e arp1 := rfl

theorem Method.pure_apply {α : Type} (a : α) (arp : ARP) :
    (pure a : Method α) arp = .returned a arp := rfl

theorem attempt_bind {α β : Type} (e : Except Fault α) (f : α → Method β) (arp : ARP) :
    (attempt e >>= f) arp =
      match e with
      | .ok a => f a arp
      | .error err => .panicked err arp := by
  cases e <;> rfl

theorem attemptWith_bind {α β : Type} (e : ARP → Except Fault α) (f : α → Method β) (arp : ARP) :
    (attemptWith e >>= f) arp =
      match e arp with
      | .ok a => f a arp
      | .error err => .panicked err arp := by
  show Method.bind (attemptWith e) f arp = _
  unfold Method.bind attemptWith attempt
  cases e arp <;> rfl

theorem load_bind {α β : Type} (g : ARP → α) (f : α → Method β) (arp : ARP) :
    (load g >>= f) arp = f (g arp) arp := rfl

theorem assign_bind {β : Type} (g : ARP → ARP) (f : Unit → Method β) (arp : ARP) :
    (assign g >>= f) arp = f () (g arp) := rfl

/-! ## The index and slice expressions -/

theorem Slice.slice_eq_ok_iff (s v : Slice) (lo hi : Nat) :
    s.slice lo hi = .ok v ↔
      lo ≤ hi ∧ hi ≤ s.cap ∧
        v = { elems := ((s.elems ++ s.spare).take hi).drop lo,
              spare := (s.elems ++ s.spare).drop hi } := by
  unfold Slice.slice
  split
  · rename_i h
    simp only [Except.ok.injEq, h.1, h.2, true_and]
    exact eq_comm
  · rename_i h
    constructor
    · intro h1; cases h1
    · intro h1; exact absurd ⟨h1.1, h1.2.1⟩ h

theorem Slice.slice_eq_error_iff (s : Slice) (f : Fault) (lo hi : Nat) :
    s.slice lo hi = .error f ↔ ¬ (lo ≤ hi ∧ hi ≤ s.cap) ∧ f = Fault.sliceBoundsOutOfRange := by
  unfold Slice.slice
  split
  · rename_i h
    simp [h]
  · rename_i h
    simp only [Except.error.injEq, h, not_false_eq_true, true_and]
    exact eq_comm

theorem Slice.slice_of_le_len (s : Slice) (lo hi : Nat) (h1 : lo ≤ hi) (h2 : hi ≤ s.len) :
    s.slice lo hi =
      .ok { elems := s.range lo hi, spare := s.elems.drop hi ++ s.spare } := by
  rw [Slice.slice_eq_ok_iff]
  unfold Slice.len at h2
  refine ⟨h1, by unfold Slice.cap; omega, ?_⟩
  rw [List.take_append_of_le_length h2, List.drop_append_of_le_length h2]
  rfl

theorem Slice.index_eq_ok_iff (s : Slice) (i : Nat) (b : Byte) :
    s.index i = .ok b ↔ s.elems[i]? = some b := by
  unfold Slice.index
  cases s.elems[i]? <;> simp

theorem Slice.index_ok_bounds (s : Slice) (i : Nat) (b : Byte) (h : s.index i = .ok b) :
    i < s.len ∧ s.byteAt i = b.val := by
  rw [Slice.index_eq_ok_iff] at h
  obtain ⟨hlt, hb⟩ := List.getElem?_eq_some_iff.mp h
  refine ⟨hlt, ?_⟩
  unfold Slice.byteAt
  rw [List.getD_eq_getElem _ _ hlt, hb]

theorem Slice.index_of_lt_len (s : Slice) (i : Nat) (h : i < s.len) :
    ∃ b : Byte, s.index i = .ok b ∧ b.val = s.byteAt i := by
  unfold Slice.len at h
  refine ⟨s.elems[i], ?_, ?_⟩
  · rw [Slice.index_eq_ok_iff]; exact List.getElem?_eq_getElem h
  · unfold Slice.byteAt
    rw [List.getD_eq_getElem _ _ h]

theorem Slice.byteAt_lt (s : Slice) (i : Nat) : s.byteAt i < 256 := (s.elems.getD i 0).isLt

theorem uint16_value (a b : Byte) :
    (b.val % 65536) ||| ((a.val % 65536) <<< 8) % 65536 = 256 * a.val + b.val := by
  have ha := a.isLt
  have hb := b.isLt
  rw [Nat.mod_eq_of_lt (by omega : b.val < 65536), Nat.mod_eq_of_lt (by omega : a.val < 65536),
    Nat.lor_comm, Nat.shiftLeft_eq, Nat.mod_eq_of_lt (by omega)]
  have hor := Nat.mul_add_lt_is_or (i := 8) (b := b.val) (by omega) a.val
  rw [← Nat.mul_comm (2 ^ 8) a.val, ← hor]

theorem Slice.range_succ_succ (s : Slice) (lo : Nat) (h : lo + 2 ≤ s.len) :
    ∃ a b : Byte, s.range lo (lo + 2) = [a, b] ∧ a.val = s.byteAt lo ∧ b.val = s.byteAt (lo + 1) := by
  unfold Slice.len at h
  refine ⟨s.elems[lo], s.elems[lo + 1], ?_, ?_, ?_⟩
  · unfold Slice.range
    apply List.ext_getElem
    · simp; omega
    · intro n h1 h2
      simp at h2
      simp [List.getElem_drop, List.getElem_take]
      match n, h2 with
      | 0, _ => rfl
      | 1, _ => rfl
  · unfold Slice.byteAt
    rw [List.getD_eq_getElem _ _ (by omega)]
  · unfold Slice.byteAt
    rw [List.getD_eq_getElem _ _ (by omega)]

theorem uint16_of_slice (s : Slice) (lo : Nat) (h : lo + 2 ≤ s.len) :
    (s.slice lo (lo + 2) >>= BigEndian.Uint16) = .ok (256 * s.byteAt lo + s.byteAt (lo + 1)) := by
  obtain ⟨a, b, hab, ha, hb⟩ := s.range_succ_succ lo h
  rw [Slice.slice_of_le_len s lo (lo + 2) (by omega) h, hab]
  simp only [bind, Except.bind, BigEndian.Uint16, Slice.index, List.getElem?_cons_succ,
    List.getElem?_cons_zero]
  rw [uint16_value, ha, hb]

theorem decode_returned {DF : Type} (k : UintKind) (data : Slice) (df : DF) (arp : ARP)
    (h255 : headerLen data ≤ 255) (hle : headerLen data ≤ data.len) :
    ARP.DecodeFromBytes k data df arp = .returned none (ARP.ofBuffer k data) := by
  unfold headerLen at h255 hle
  obtain ⟨b4, hi4, hb4⟩ := data.index_of_lt_len 4 (by omega)
  obtain ⟨b5, hi5, hb5⟩ := data.index_of_lt_len 5 (by omega)
  have e1 : u8add 8 (data.byteAt 4) = 8 + data.byteAt 4 := by unfold u8add; omega
  have e2 : u8add (8 + data.byteAt 4) (data.byteAt 5) = 8 + data.byteAt 4 + data.byteAt 5 := by
    unfold u8add; omega
  have e3 : u8mul 2 (data.byteAt 4) = 2 * data.byteAt 4 := by unfold u8mul; omega
  have e4 : u8mul 2 (data.byteAt 5) = 2 * data.byteAt 5 := by unfold u8mul; omega
  have e5 : u8add 8 (2 * data.byteAt 4) = 8 + 2 * data.byteAt 4 := by unfold u8add; omega
  have e6 : u8add (8 + 2 * data.byteAt 4) (data.byteAt 5) = 8 + 2 * data.byteAt 4 + data.byteAt 5 := by
    unfold u8add; omega
  have e7 : u8add (8 + 2 * data.byteAt 4) (2 * data.byteAt 5)
      = 8 + 2 * data.byteAt 4 + 2 * data.byteAt 5 := by
    unfold u8add; omega
  simp only [ARP.DecodeFromBytes, attempt_bind, assign_bind, attemptWith_bind, load_bind,
    Method.pure_apply, uint16_of_slice data 0 (by omega), uint16_of_slice data 2 (by omega),
    uint16_of_slice data 6 (by omega), hi4, hi5, hb4, hb5, e1, e2, e3, e4, e5, e6, e7,
    Slice.sliceTo, Slice.sliceFrom,
    Slice.slice_of_le_len data 8 (8 + data.byteAt 4) (by omega) (by omega),
    Slice.slice_of_le_len data (8 + data.byteAt 4) (8 + data.byteAt 4 + data.byteAt 5)
      (by omega) (by omega),
    Slice.slice_of_le_len data (8 + data.byteAt 4 + data.byteAt 5)
      (8 + 2 * data.byteAt 4 + data.byteAt 5) (by omega) (by omega),
    Slice.slice_of_le_len data (8 + 2 * data.byteAt 4 + data.byteAt 5)
      (8 + 2 * data.byteAt 4 + 2 * data.byteAt 5) (by omega) (by omega),
    Slice.slice_of_le_len data 0 (8 + 2 * data.byteAt 4 + 2 * data.byteAt 5) (by omega) (by omega),
    Slice.slice_of_le_len data (8 + 2 * data.byteAt 4 + 2 * data.byteAt 5) data.len
      (by omega) (by omega)]
  have l2 := data.byteAt_lt 2
  have l3 := data.byteAt_lt 3
  have t2 : EthernetType.ofUint16 (256 * data.byteAt 2 + data.byteAt 3)
      = 256 * data.byteAt 2 + data.byteAt 3 := by unfold EthernetType.ofUint16; omega
  simp only [Nat.zero_add, Nat.reduceAdd, t2]
  rfl

theorem decode_panicked {DF : Type} (k : UintKind) (data : Slice) (df : DF) (arp : ARP)
    (hbad : ¬ (headerLen data ≤ 255 ∧ headerLen data ≤ data.len)) :
    ∃ f arp1, ARP.DecodeFromBytes k data df arp = .panicked f arp1 ∧
      arp1.Payload = arp.Payload ∧
      (data.spare = [] →
        arp1.Contents = arp.Contents ∧ arp1.DstProtAddress = arp.DstProtAddress) := by
  unfold headerLen at hbad
  have l4 := data.byteAt_lt 4
  have l5 := data.byteAt_lt 5
  simp only [ARP.DecodeFromBytes, attempt_bind, assign_bind, attemptWith_bind, load_bind,
    Method.pure_apply, Slice.sliceTo, Slice.sliceFrom]
  split
  case h_2 => exact ⟨_, _, rfl, rfl, fun _ => ⟨rfl, rfl⟩⟩
  split
  case h_2 => exact ⟨_, _, rfl, rfl, fun _ => ⟨rfl, rfl⟩⟩
  split
  case h_2 => exact ⟨_, _, rfl, rfl, fun _ => ⟨rfl, rfl⟩⟩
  split
  case h_2 => exact ⟨_, _, rfl, rfl, fun _ => ⟨rfl, rfl⟩⟩
  split
  case h_2 => exact ⟨_, _, rfl, rfl, fun _ => ⟨rfl, rfl⟩⟩
  rename_i _ v0 h0 _ v2 h2 _ b4 h4 _ b5 h5 _ v6 h6
  obtain ⟨k4, e4⟩ := data.index_ok_bounds 4 b4 h4
  obtain ⟨k5, e5⟩ := data.index_ok_bounds 5 b5 h5
  rw [← e4, ← e5]
  split
  case h_2 => exact ⟨_, _, rfl, rfl, fun _ => ⟨rfl, rfl⟩⟩
  split
  case h_2 => exact ⟨_, _, rfl, rfl, fun _ => ⟨rfl, rfl⟩⟩
  split
  case h_2 => exact ⟨_, _, rfl, rfl, fun _ => ⟨rfl, rfl⟩⟩
  split
  case h_2 => exact ⟨_, _, rfl, rfl, fun _ => ⟨rfl, rfl⟩⟩
  rename_i _ s1 g1 _ s2 g2 _ s3 g3 _ s4 g4
  rw [Slice.slice_eq_ok_iff] at g1 g2 g3 g4
  simp only [u8add, u8mul, Slice.cap, Slice.len] at g1 g2 g3 g4 k4 k5 hbad
  split
  case h_2 =>
    rename_i _ f g5
    rw [Slice.slice_eq_error_iff] at g5
    simp only [u8add, u8mul, Slice.cap] at g5
    omega
  split
  case h_2 =>
    rename_i _ s5 g5 _ f g6
    rw [Slice.slice_eq_error_iff] at g6
    simp only [u8add, u8mul, Slice.cap, Slice.len] at g6
    refine ⟨_, _, rfl, rfl, fun hs => ?_⟩
    rw [hs] at g6 g4
    simp only [List.length_nil, Nat.add_zero] at g6 g4
    omega
  rename_i _ s5 g5 _ s6 g6
  rw [Slice.slice_eq_ok_iff] at g6
  simp only [u8add, u8mul, Slice.cap, Slice.len] at g6
  omega

/-! ## The two ways a decode can end -/

theorem decode_returned_inv {DF : Type} (k : UintKind) (data : Slice) (df : DF) (arp arp1 : ARP)
    (e : Option DecodeError) (h : ARP.DecodeFromBytes k data df arp = .returned e arp1) :
    headerLen data ≤ 255 ∧ headerLen data ≤ data.len ∧ e = none ∧ arp1 = ARP.ofBuffer k data := by
  by_cases hc : headerLen data ≤ 255 ∧ headerLen data ≤ data.len
  · rw [decode_returned k data df arp hc.1 hc.2] at h
    cases h
    exact ⟨hc.1, hc.2, rfl, rfl⟩
  · obtain ⟨f, arp2, h2, _⟩ := decode_panicked k data df arp hc
    rw [h2] at h
    cases h

theorem decode_panicked_inv {DF : Type} (k : UintKind) (data : Slice) (df : DF) (arp arp1 : ARP)
    (f : Fault) (h : ARP.DecodeFromBytes k data df arp = .panicked f arp1) :
    ¬ (headerLen data ≤ 255 ∧ headerLen data ≤ data.len) ∧ arp1.Payload = arp.Payload ∧
      (data.spare = [] →
        arp1.Contents = arp.Contents ∧ arp1.DstProtAddress = arp.DstProtAddress) := by
  by_cases hc : headerLen data ≤ 255 ∧ headerLen data ≤ data.len
  · rw [decode_returned k data df arp hc.1 hc.2] at h
    cases h
  · obtain ⟨f2, arp2, h2, h3⟩ := decode_panicked k data df arp hc
    rw [h2] at h
    cases h
    exact ⟨hc, h3⟩

theorem headerLen_ge (data : Slice) : 8 ≤ headerLen data := by
  unfold headerLen
  omega

/-! ## Byte ranges -/

theorem Slice.range_length (s : Slice) (lo hi : Nat) (h : hi ≤ s.len) :
    (s.range lo hi).length = hi - lo := by
  unfold Slice.len at h
  unfold Slice.range
  rw [List.length_drop, List.length_take, Nat.min_eq_left h]

theorem Slice.range_zero (s : Slice) (hi : Nat) : s.range 0 hi = s.elems.take hi := by
  unfold Slice.range
  rfl

theorem Slice.range_len (s : Slice) (lo : Nat) : s.range lo s.len = s.elems.drop lo := by
  unfold Slice.range Slice.len
  rw [List.take_length]

theorem Slice.range_append (s : Slice) (a b c : Nat) (hab : a ≤ b) (hbc : b ≤ c)
    (hc : c ≤ s.len) : s.range a b ++ s.range b c = s.range a c := by
  unfold Slice.len at hc
  unfold Slice.range
  have e1 : s.elems.take b = (s.elems.take c).take b := by
    rw [List.take_take, Nat.min_eq_left hbc]
  have e2 : ((s.elems.take c).take b).length = b := by
    rw [List.length_take, List.length_take]
    omega
  rw [e1, ← List.drop_append_of_le_length (by omega), List.take_append_drop]

theorem Slice.range_drop (s : Slice) (a c : Nat) :
    (s.range 0 c).drop a = s.range a c := by
  unfold Slice.range
  rfl

/-! ## Claims -/

/-- Claim C1, refuted as stated: on the first 27 bytes of the sample request,
which declare a 28-byte header, `DecodeFromBytes` does not return a `Truncated`
error; it returns nothing and ends in a slice-bounds panic. -/
theorem C1_truncated_sample_panics :
    (Slice.ofList (sampleRequest.take 27)).len = 27 ∧
    headerLen (Slice.ofList (sampleRequest.take 27)) = 28 ∧
    (ARP.DecodeFromBytes UintKind.uint8 (Slice.ofList (sampleRequest.take 27)) () ARP.zero).fault?
      = some Fault.sliceBoundsOutOfRange ∧
    (ARP.DecodeFromBytes UintKind.uint8 (Slice.ofList (sampleRequest.take 27)) () ARP.zero).value? = none := by
  decide

/-- Claim C1, amended: for every buffer shorter than 8 bytes or shorter than the
header length computed from its own fields, whatever its capacity and whatever
the receiver held, `DecodeFromBytes` does not return at all (neither `nil` nor an
error): it ends in a run-time panic of an index or slice expression. -/
theorem C1_short_buffer_panics {DF : Type} (k : UintKind) (data : Slice) (df : DF) (arp : ARP)
    (hshort : data.len < 8 ∨ data.len < headerLen data) :
    (∃ f arp1, ARP.DecodeFromBytes k data df arp = .panicked f arp1) ∧
    ∀ e arp1, ARP.DecodeFromBytes k data df arp ≠ .returned e arp1 := by
  have h8 := headerLen_ge data
  have hbad : ¬ (headerLen data ≤ 255 ∧ headerLen data ≤ data.len) := by omega
  obtain ⟨f, arp1, h1, _⟩ := decode_panicked k data df arp hbad
  refine ⟨⟨f, arp1, h1⟩, ?_⟩
  intro e arp2 h2
  rw [h1] at h2
  cases h2

/-- Claim C1, amended, at the empty buffer. -/
theorem C1_short_buffer_panics_witness :
    (Slice.ofList []).len < 8 ∧
    ((∃ f arp1, ARP.DecodeFromBytes UintKind.uint8 (Slice.ofList []) () ARP.zero = .panicked f arp1) ∧
      ∀ e arp1, ARP.DecodeFromBytes UintKind.uint8 (Slice.ofList []) () ARP.zero ≠ .returned e arp1) :=
  ⟨by decide, C1_short_buffer_panics UintKind.uint8 (Slice.ofList []) () ARP.zero (Or.inl (by decide))⟩

/-- Claim C2, refuted as stated: the 256-byte buffer with `hwLen = 124` and
`protoLen = 0` is as long as its exact header length 256, yet `DecodeFromBytes`
returns nothing and ends in a slice-bounds panic, because the offset
`8 + 2*124 + 0` wraps to 0 in `uint8`. -/
theorem C2_oversized_header_panics :
    8 ≤ (Slice.ofList oversized).len ∧
    headerLen (Slice.ofList oversized) = 256 ∧
    headerLen (Slice.ofList oversized) ≤ (Slice.ofList oversized).len ∧
    (ARP.DecodeFromBytes UintKind.uint8 (Slice.ofList oversized) () ARP.zero).fault?
      = some Fault.sliceBoundsOutOfRange ∧
    (ARP.DecodeFromBytes UintKind.uint8 (Slice.ofList oversized) () ARP.zero).value? = none := by
  decide

/-- Claim C2, amended: for every buffer whose length is at least its exact header
length `8 + 2*hwLen + 2*protoLen` and whose header length is at most 255,
`DecodeFromBytes` returns `nil` and sets `Contents = buffer[0:headerLen]` and
`Payload = buffer[headerLen:]`, so that `Contents` followed by `Payload` is the
whole buffer. -/
theorem C2_decode_succeeds {DF : Type} (k : UintKind) (data : Slice) (df : DF) (arp : ARP)
    (hlen : headerLen data ≤ data.len) (hfit : headerLen data ≤ 255) :
    ∃ arp1, ARP.DecodeFromBytes k data df arp = .returned none arp1 ∧
      data.sliceTo (headerLen data) = .ok arp1.Contents ∧
      data.sliceFrom (headerLen data) = .ok arp1.Payload ∧
      arp1.Contents.elems = data.elems.take (headerLen data) ∧
      arp1.Payload.elems = data.elems.drop (headerLen data) ∧
      arp1.Contents.elems ++ arp1.Payload.elems = data.elems := by
  refine ⟨ARP.ofBuffer k data, decode_returned k data df arp hfit hlen, ?_, ?_, ?_, ?_, ?_⟩
  · exact Slice.slice_of_le_len data 0 (headerLen data) (Nat.zero_le _) hlen
  · exact Slice.slice_of_le_len data (headerLen data) data.len hlen (Nat.le_refl _)
  · exact data.range_zero (headerLen data)
  · exact data.range_len (headerLen data)
  · show data.range 0 (headerLen data) ++ data.range (headerLen data) data.len = data.elems
    rw [data.range_zero, data.range_len, List.take_append_drop]

/-- Claim C2, amended, at the 28-byte sample request. -/
theorem C2_decode_succeeds_witness :
    headerLen (Slice.ofList sampleRequest) ≤ (Slice.ofList sampleRequest).len ∧
    headerLen (Slice.ofList sampleRequest) ≤ 255 ∧
    ∃ arp1, ARP.DecodeFromBytes UintKind.uint8 (Slice.ofList sampleRequest) () ARP.zero = .returned none arp1 ∧
      (Slice.ofList sampleRequest).sliceTo (headerLen (Slice.ofList sampleRequest))
        = .ok arp1.Contents ∧
      (Slice.ofList sampleRequest).sliceFrom (headerLen (Slice.ofList sampleRequest))
        = .ok arp1.Payload ∧
      arp1.Contents.elems
        = (Slice.ofList sampleRequest).elems.take (headerLen (Slice.ofList sampleRequest)) ∧
      arp1.Payload.elems
        = (Slice.ofList sampleRequest).elems.drop (headerLen (Slice.ofList sampleRequest)) ∧
      arp1.Contents.elems ++ arp1.Payload.elems = (Slice.ofList sampleRequest).elems :=
  ⟨by decide, by decide,
    C2_decode_succeeds UintKind.uint8 (Slice.ofList sampleRequest) () ARP.zero (by decide) (by decide)⟩

/-- Claim C3: decoding the 28-byte sample request, whatever the receiver held,
whatever spare capacity follows the buffer and whatever the width of `LinkType`,
returns `nil` and yields
`AddrType = 1`, `Protocol = 0x0800`, `HwAddressSize = 6`, `ProtAddressSize = 4`,
`Operation = 1`, the four addresses `AA BB CC DD EE FF`, `C0 A8 00 01`,
`11 22 33 44 55 66`, `C0 A8 00 02`, `Contents` equal to all 28 bytes and an
empty `Payload`. -/
theorem C3_sample_request {DF : Type} (k : UintKind) (df : DF) (arp : ARP) (spare : List Byte) :
    ∃ arp1,
      ARP.DecodeFromBytes k { elems := sampleRequest, spare := spare } df arp
        = .returned none arp1 ∧
      arp1.AddrType = 1 ∧ arp1.Protocol = 0x0800 ∧
      arp1.HwAddressSize = 6 ∧ arp1.ProtAddressSize = 4 ∧ arp1.Operation = 1 ∧
      arp1.SourceHwAddress.elems = [0xAA, 0xBB, 0xCC, 0xDD, 0xEE, 0xFF] ∧
      arp1.SourceProtAddress.elems = [0xC0, 0xA8, 0x00, 0x01] ∧
      arp1.DstHwAddress.elems = [0x11, 0x22, 0x33, 0x44, 0x55, 0x66] ∧
      arp1.DstProtAddress.elems = [0xC0, 0xA8, 0x00, 0x02] ∧
      arp1.Contents.elems = sampleRequest ∧ arp1.Contents.len = 28 ∧
      arp1.Payload.elems = [] := by
  have h28 : headerLen { elems := sampleRequest, spare := spare } = 28 := rfl
  have hl : Slice.len { elems := sampleRequest, spare := spare } = 28 := rfl
  refine ⟨ARP.ofBuffer k { elems := sampleRequest, spare := spare },
    decode_returned k _ df arp (by omega) (by omega), ?_⟩
  refine ⟨?_, rfl, rfl, rfl, rfl, rfl, rfl, rfl, rfl, rfl, rfl, rfl⟩
  cases k <;> rfl

/-- Claim C4: whenever `DecodeFromBytes` returns, with `h = buffer[4]` and
`p = buffer[5]`, the four address fields are the contiguous byte ranges
`[8, 8+h)`, `[8+h, 8+h+p)`, `[8+h+p, 8+2h+p)`, `[8+2h+p, 8+2h+2p)` of the buffer,
of lengths `h`, `p`, `h`, `p`, and their concatenation is `Contents` without its
first 8 bytes; and every 28-byte buffer with `h = 6`, `p = 4` decodes, with
`Contents` of length 28 and the fields at `[8,14)`, `[14,18)`, `[18,24)`,
`[24,28)`. -/
theorem C4_address_fields {DF : Type} (k : UintKind) (data : Slice) (df : DF) (arp : ARP) :
    (∀ e arp1, ARP.DecodeFromBytes k data df arp = .returned e arp1 →
      arp1.SourceHwAddress.elems = data.range 8 (8 + data.byteAt 4) ∧
      arp1.SourceProtAddress.elems
        = data.range (8 + data.byteAt 4) (8 + data.byteAt 4 + data.byteAt 5) ∧
      arp1.DstHwAddress.elems
        = data.range (8 + data.byteAt 4 + data.byteAt 5)
            (8 + 2 * data.byteAt 4 + data.byteAt 5) ∧
      arp1.DstProtAddress.elems
        = data.range (8 + 2 * data.byteAt 4 + data.byteAt 5)
            (8 + 2 * data.byteAt 4 + 2 * data.byteAt 5) ∧
      arp1.SourceHwAddress.len = data.byteAt 4 ∧ arp1.SourceProtAddress.len = data.byteAt 5 ∧
      arp1.DstHwAddress.len = data.byteAt 4 ∧ arp1.DstProtAddress.len = data.byteAt 5 ∧
      arp1.SourceHwAddress.elems ++ arp1.SourceProtAddress.elems ++ arp1.DstHwAddress.elems
          ++ arp1.DstProtAddress.elems
        = arp1.Contents.elems.drop 8) ∧
    (data.len = 28 → data.byteAt 4 = 6 → data.byteAt 5 = 4 →
      ∃ arp1, ARP.DecodeFromBytes k data df arp = .returned none arp1 ∧
        arp1.Contents.len = 28 ∧
        arp1.SourceHwAddress.elems = data.range 8 14 ∧
        arp1.SourceProtAddress.elems = data.range 14 18 ∧
        arp1.DstHwAddress.elems = data.range 18 24 ∧
        arp1.DstProtAddress.elems = data.range 24 28) := by
  constructor
  · intro e arp1 hok
    obtain ⟨h255, hle, _, rfl⟩ := decode_returned_inv k data df arp arp1 e hok
    unfold headerLen at h255 hle
    refine ⟨rfl, rfl, rfl, rfl, ?_, ?_, ?_, ?_, ?_⟩
    · show (data.range _ _).length = _
      rw [data.range_length _ _ (by omega)]; omega
    · show (data.range _ _).length = _
      rw [data.range_length _ _ (by omega)]; omega
    · show (data.range _ _).length = _
      rw [data.range_length _ _ (by omega)]; omega
    · show (data.range _ _).length = _
      rw [data.range_length _ _ (by omega)]; omega
    · show data.range 8 (8 + data.byteAt 4)
          ++ data.range (8 + data.byteAt 4) (8 + data.byteAt 4 + data.byteAt 5)
          ++ data.range (8 + data.byteAt 4 + data.byteAt 5)
              (8 + 2 * data.byteAt 4 + data.byteAt 5)
          ++ data.range (8 + 2 * data.byteAt 4 + data.byteAt 5)
              (8 + 2 * data.byteAt 4 + 2 * data.byteAt 5)
        = (data.range 0 (8 + 2 * data.byteAt 4 + 2 * data.byteAt 5)).drop 8
      rw [data.range_append _ _ _ (by omega) (by omega) (by omega),
        data.range_append _ _ _ (by omega) (by omega) (by omega),
        data.range_append _ _ _ (by omega) (by omega) (by omega), data.range_drop]
  · intro hlen h6 h4
    have hh : headerLen data = 28 := by unfold headerLen; omega
    refine ⟨ARP.ofBuffer k data, decode_returned k data df arp (by omega) (by omega), ?_⟩
    refine ⟨?_, ?_, ?_, ?_, ?_⟩
    · show (data.range 0 (headerLen data)).length = 28
      rw [data.range_length _ _ (by omega)]; omega
    · show data.range 8 (8 + data.byteAt 4) = _
      rw [h6]
    · show data.range (8 + data.byteAt 4) (8 + data.byteAt 4 + data.byteAt 5) = _
      rw [h6, h4]
    · show data.range (8 + data.byteAt 4 + data.byteAt 5)
          (8 + 2 * data.byteAt 4 + data.byteAt 5) = _
      rw [h6, h4]
    · show data.range (8 + 2 * data.byteAt 4 + data.byteAt 5)
          (8 + 2 * data.byteAt 4 + 2 * data.byteAt 5) = _
      rw [h6, h4]

/-- Claim C4 at the 28-byte sample request: the ranges found there. -/
theorem C4_address_fields_witness :
    (Slice.ofList sampleRequest).len = 28 ∧ (Slice.ofList sampleRequest).byteAt 4 = 6 ∧
    (Slice.ofList sampleRequest).byteAt 5 = 4 ∧
    ∃ arp1, ARP.DecodeFromBytes UintKind.uint8 (Slice.ofList sampleRequest) () ARP.zero = .returned none arp1 ∧
      arp1.Contents.len = 28 ∧
      arp1.SourceHwAddress.elems = (Slice.ofList sampleRequest).range 8 14 ∧
      arp1.SourceProtAddress.elems = (Slice.ofList sampleRequest).range 14 18 ∧
      arp1.DstHwAddress.elems = (Slice.ofList sampleRequest).range 18 24 ∧
      arp1.DstProtAddress.elems = (Slice.ofList sampleRequest).range 24 28 :=
  ⟨by decide, by decide, by decide,
    (C4_address_fields UintKind.uint8 (Slice.ofList sampleRequest) () ARP.zero).2
      (by decide) (by decide) (by decide)⟩

/-- Claim C5, refuted as stated: on the first 8 bytes of the sample request the
call panics at `data[8:14]`, after the five fixed fields have been assigned, so
the receiver `ARP{}` is left changed (for instance `AddrType` is 1, not 0). -/
theorem C5_failed_decode_mutates :
    (ARP.DecodeFromBytes UintKind.uint8 (Slice.ofList (sampleRequest.take 8)) () ARP.zero).fault?
      = some Fault.sliceBoundsOutOfRange ∧
    ARP.zero.AddrType = 0 ∧
    (ARP.DecodeFromBytes UintKind.uint8 (Slice.ofList (sampleRequest.take 8)) () ARP.zero).receiver.AddrType
      = 1 ∧
    (ARP.DecodeFromBytes UintKind.uint8 (Slice.ofList (sampleRequest.take 8)) () ARP.zero).receiver
      ≠ ARP.zero := by
  decide

/-- Claim C5, amended: `DecodeFromBytes` never returns an error, it fails only by
panicking; after a failed call `Payload` holds the value it held before, and
when the buffer's capacity equals its length so do `Contents` and
`DstProtAddress`. Nothing is stated about the fields assigned earlier. -/
theorem C5_failed_decode_keeps {DF : Type} (k : UintKind) (data : Slice) (df : DF) (arp : ARP) :
    (∀ e arp1, ARP.DecodeFromBytes k data df arp = .returned e arp1 → e = none) ∧
    (∀ f arp1, ARP.DecodeFromBytes k data df arp = .panicked f arp1 →
      arp1.Payload = arp.Payload ∧
      (data.cap = data.len →
        arp1.Contents = arp.Contents ∧ arp1.DstProtAddress = arp.DstProtAddress)) := by
  constructor
  · intro e arp1 hok
    exact (decode_returned_inv k data df arp arp1 e hok).2.2.1
  · intro f arp1 hfail
    obtain ⟨_, hp, hc⟩ := decode_panicked_inv k data df arp arp1 f hfail
    refine ⟨hp, fun hcap => hc ?_⟩
    unfold Slice.cap Slice.len at hcap
    exact List.length_eq_zero.mp (by omega)

/-- Claim C5, amended, at the sample request (which returns `nil`) and at its
first 8 bytes (which panic with capacity equal to length). -/
theorem C5_failed_decode_keeps_witness :
    (ARP.DecodeFromBytes UintKind.uint8 (Slice.ofList sampleRequest) () ARP.zero).value?.join = none ∧
    (ARP.DecodeFromBytes UintKind.uint8 (Slice.ofList (sampleRequest.take 8)) () ARP.zero).receiver.Payload
      = ARP.zero.Payload ∧
    (ARP.DecodeFromBytes UintKind.uint8 (Slice.ofList (sampleRequest.take 8)) () ARP.zero).receiver.Contents
      = ARP.zero.Contents ∧
    (ARP.DecodeFromBytes UintKind.uint8 (Slice.ofList (sampleRequest.take 8)) () ARP.zero).receiver.DstProtAddress
      = ARP.zero.DstProtAddress :=
  have hret := (C5_failed_decode_keeps UintKind.uint8 (Slice.ofList sampleRequest) () ARP.zero).1
    (ARP.DecodeFromBytes UintKind.uint8 (Slice.ofList sampleRequest) () ARP.zero).value?.join
    (ARP.DecodeFromBytes UintKind.uint8 (Slice.ofList sampleRequest) () ARP.zero).receiver
    (by decide)
  have hkeep := (C5_failed_decode_keeps UintKind.uint8 (Slice.ofList (sampleRequest.take 8)) () ARP.zero).2
    Fault.sliceBoundsOutOfRange
    (ARP.DecodeFromBytes UintKind.uint8 (Slice.ofList (sampleRequest.take 8)) () ARP.zero).receiver
    (by decide)
  ⟨hret, hkeep.1, (hkeep.2 (by decide)).1, (hkeep.2 (by decide)).2⟩

/-- Claim C6, refuted as stated: with an 8-bit `LinkType`, decoding the sample
request whose first two bytes are `12 34` returns `nil` and leaves
`AddrType = 52` (the low byte `34`), not `256*0x12 + 0x34 = 4660`. -/
theorem C6_link_type_truncates :
    (ARP.DecodeFromBytes UintKind.uint8 (Slice.ofList wideTypeRequest) () ARP.zero).value?
      = some none ∧
    (ARP.DecodeFromBytes UintKind.uint8 (Slice.ofList wideTypeRequest) ()
      ARP.zero).receiver.AddrType = 52 ∧
    256 * (Slice.ofList wideTypeRequest).byteAt 0 + (Slice.ofList wideTypeRequest).byteAt 1
      = 4660 := by
  decide

/-- Claim C6, amended: whenever `DecodeFromBytes` returns, the buffer has at
least 8 bytes, `Protocol = 256*b[2] + b[3]`, `HwAddressSize = b[4]`,
`ProtAddressSize = b[5]`, `Operation = 256*b[6] + b[7]`, and `AddrType` is the
big-endian reading `256*b[0] + b[1]` truncated to the width of `LinkType`: it is
that reading itself when `LinkType` has at least 16 bits, and `b[1]` when it has
8. -/
theorem C6_fixed_header_fields {DF : Type} (k : UintKind) (data : Slice) (df : DF)
    (arp arp1 : ARP) (e : Option DecodeError)
    (hok : ARP.DecodeFromBytes k data df arp = .returned e arp1) :
    8 ≤ data.len ∧
    arp1.AddrType = (256 * data.byteAt 0 + data.byteAt 1) % 2 ^ k.bits ∧
    (16 ≤ k.bits → arp1.AddrType = 256 * data.byteAt 0 + data.byteAt 1) ∧
    (k.bits = 8 → arp1.AddrType = data.byteAt 1) ∧
    arp1.Protocol = 256 * data.byteAt 2 + data.byteAt 3 ∧
    arp1.HwAddressSize = data.byteAt 4 ∧
    arp1.ProtAddressSize = data.byteAt 5 ∧
    arp1.Operation = 256 * data.byteAt 6 + data.byteAt 7 := by
  obtain ⟨_, hle, _, rfl⟩ := decode_returned_inv k data df arp arp1 e hok
  have h8 := headerLen_ge data
  have l0 := data.byteAt_lt 0
  have l1 := data.byteAt_lt 1
  have hval : (ARP.ofBuffer k data).AddrType
      = (256 * data.byteAt 0 + data.byteAt 1) % 2 ^ k.bits := rfl
  refine ⟨by omega, hval, ?_, ?_, rfl, rfl, rfl, rfl⟩
  · intro hw
    rw [hval]
    apply Nat.mod_eq_of_lt
    calc 256 * data.byteAt 0 + data.byteAt 1 < 2 ^ 16 := by norm_num; omega
      _ ≤ 2 ^ k.bits := Nat.pow_le_pow_right (by norm_num) hw
  · intro hw
    rw [hval, hw]
    norm_num
    omega

/-- Claim C6, amended, at the sample request with type bytes `12 34`: an 8-bit
`LinkType` leaves `AddrType = b[1] = 52`, a 16-bit one leaves `4660`. -/
theorem C6_fixed_header_fields_witness :
    8 ≤ (Slice.ofList wideTypeRequest).len ∧
    (ARP.ofBuffer UintKind.uint8 (Slice.ofList wideTypeRequest)).AddrType
      = (Slice.ofList wideTypeRequest).byteAt 1 ∧
    (ARP.ofBuffer UintKind.uint16 (Slice.ofList wideTypeRequest)).AddrType
      = 256 * (Slice.ofList wideTypeRequest).byteAt 0
        + (Slice.ofList wideTypeRequest).byteAt 1 ∧
    (ARP.ofBuffer UintKind.uint8 (Slice.ofList wideTypeRequest)).Protocol
      = 256 * (Slice.ofList wideTypeRequest).byteAt 2
        + (Slice.ofList wideTypeRequest).byteAt 3 ∧
    (ARP.ofBuffer UintKind.uint8 (Slice.ofList wideTypeRequest)).Operation
      = 256 * (Slice.ofList wideTypeRequest).byteAt 6
        + (Slice.ofList wideTypeRequest).byteAt 7 :=
  have h8 := C6_fixed_header_fields UintKind.uint8 (Slice.ofList wideTypeRequest) () ARP.zero
    (ARP.ofBuffer UintKind.uint8 (Slice.ofList wideTypeRequest)) none (by decide)
  have h16 := C6_fixed_header_fields UintKind.uint16 (Slice.ofList wideTypeRequest) () ARP.zero
    (ARP.ofBuffer UintKind.uint16 (Slice.ofList wideTypeRequest)) none (by decide)
  ⟨h8.1, h8.2.2.2.1 (by decide), h16.2.2.1 (by decide), h8.2.2.2.2.1, h8.2.2.2.2.2.2.2⟩

/-- Claim C7: the result of a decode is a function of the buffer alone: if
`DecodeFromBytes` returns on a buffer from one receiver state, it returns on the
same buffer from any other receiver state (and with any feedback sink), with the
same return value and a receiver equal in every field. -/
theorem C7_decode_deterministic {DF1 DF2 : Type} (k : UintKind) (data : Slice) (df1 : DF1) (df2 : DF2)
    (arp1 arp2 r : ARP) (e : Option DecodeError)
    (hok : ARP.DecodeFromBytes k data df1 arp1 = .returned e r) :
    ARP.DecodeFromBytes k data df2 arp2 = .returned e r := by
  obtain ⟨h255, hle, rfl, rfl⟩ := decode_returned_inv k data df1 arp1 r e hok
  exact decode_returned k data df2 arp2 h255 hle

/-- Claim C7 at the sample request: decoding it into `ARP{}` and decoding it
again into the receiver the first decode left behind give the same result. -/
theorem C7_decode_deterministic_witness :
    ARP.DecodeFromBytes UintKind.uint8 (Slice.ofList sampleRequest) ()
        (ARP.ofBuffer UintKind.uint8 (Slice.ofList sampleRequest))
      = .returned none (ARP.ofBuffer UintKind.uint8 (Slice.ofList sampleRequest)) :=
  C7_decode_deterministic UintKind.uint8 (Slice.ofList sampleRequest) () () ARP.zero
    (ARP.ofBuffer UintKind.uint8 (Slice.ofList sampleRequest)) (ARP.ofBuffer UintKind.uint8 (Slice.ofList sampleRequest))
    none (by decide)

/-- Claim C8: for every ARP value, `NextLayerType` returns `LayerTypePayload`,
the tag that stands for no further structured layer. -/
theorem C8_next_layer_type (tags : Tags) (arp : ARP) :
    ARP.NextLayerType tags arp = tags.LayerTypePayload := rfl

/-- Claim C9: for every ARP value, `CanDecode` holds exactly one tag,
`LayerTypeARP`, which is the tag `LayerType` returns, and neither depends on the
fields of the value. -/
theorem C9_can_decode (tags : Tags) (arp other : ARP) :
    (ARP.CanDecode tags arp).LayerTypes = [ARP.LayerType tags arp] ∧
    ARP.LayerType tags arp = tags.LayerTypeARP ∧
    ARP.CanDecode tags arp = ARP.CanDecode tags other ∧
    ARP.LayerType tags arp = ARP.LayerType tags other :=
  ⟨rfl, rfl, rfl, rfl⟩

/-- Claim C10: `DecodeFromBytes` returns (no index or slice expression out of
range) exactly when the buffer has at least 8 bytes and its exact header length
`8 + 2h + 2p` is at most 255 and at most the buffer length, whatever the
capacity; every decode that returns has `Contents` of exactly that length; and
every buffer declaring a header longer than 255 bytes makes the call panic. -/
theorem C10_uint8_offsets {DF : Type} (k : UintKind) (data : Slice) (df : DF) (arp : ARP) :
    ((∃ e arp1, ARP.DecodeFromBytes k data df arp = .returned e arp1) ↔
      (8 ≤ data.len ∧ headerLen data ≤ 255 ∧ headerLen data ≤ data.len)) ∧
    (∀ e arp1, ARP.DecodeFromBytes k data df arp = .returned e arp1 →
      arp1.Contents.len = headerLen data) ∧
    (255 < headerLen data → ∃ f arp1, ARP.DecodeFromBytes k data df arp = .panicked f arp1) := by
  refine ⟨⟨?_, ?_⟩, ?_, ?_⟩
  · rintro ⟨e, arp1, hok⟩
    obtain ⟨h255, hle, _, _⟩ := decode_returned_inv k data df arp arp1 e hok
    have h8 := headerLen_ge data
    exact ⟨by omega, h255, hle⟩
  · rintro ⟨_, h255, hle⟩
    exact ⟨none, ARP.ofBuffer k data, decode_returned k data df arp h255 hle⟩
  · intro e arp1 hok
    obtain ⟨_, hle, _, rfl⟩ := decode_returned_inv k data df arp arp1 e hok
    show (data.range 0 (headerLen data)).length = headerLen data
    rw [data.range_length _ _ hle]
    rfl
  · intro hbig
    obtain ⟨f, arp1, h1, _⟩ := decode_panicked k data df arp (by omega)
    exact ⟨f, arp1, h1⟩

/-- Claim C10 at the sample request, which returns with `Contents` of length 28,
and at the 256-byte buffer with `h = 124`, `p = 0`, which panics. -/
theorem C10_uint8_offsets_witness :
    (∃ e arp1, ARP.DecodeFromBytes UintKind.uint8 (Slice.ofList sampleRequest) () ARP.zero
      = .returned e arp1) ∧
    (ARP.ofBuffer UintKind.uint8 (Slice.ofList sampleRequest)).Contents.len
      = headerLen (Slice.ofList sampleRequest) ∧
    255 < headerLen (Slice.ofList oversized) ∧
    ∃ f arp1, ARP.DecodeFromBytes UintKind.uint8 (Slice.ofList oversized) () ARP.zero = .panicked f arp1 :=
  ⟨(C10_uint8_offsets UintKind.uint8 (Slice.ofList sampleRequest) () ARP.zero).1.2
      ⟨by decide, by decide, by decide⟩,
    (C10_uint8_offsets UintKind.uint8 (Slice.ofList sampleRequest) () ARP.zero).2.1 none
      (ARP.ofBuffer UintKind.uint8 (Slice.ofList sampleRequest)) (by decide),
    by decide,
    (C10_uint8_offsets UintKind.uint8 (Slice.ofList oversized) () ARP.zero).2.2 (by decide)⟩

end Layers
